import Mathlib

/-!
Verification of the pico-modbus-gateway Modbus TCP→RTU gateway.

Shallow embedding of `modbus_rtu.py` and `modbus_tcp_server.py`.
Bytes are modelled as `Nat` (Python `bytes` elements are `0 ≤ b < 256`;
where a property needs that bound it appears as a hypothesis).
Byte strings are `List Nat`.  The serial line is modelled by the list of
bytes the device emits within the timeout window (`uart.read n` returns
up to `n` of them, or nothing when the device stays silent).  The
hardware code path (`RUNNING_ON_HARDWARE = True`) is the one modelled;
the local-test path only simulates a permanent timeout.
-/

namespace ModbusGateway

/-! ## CRC16 codec (`ModbusRTU._calculate_crc`) -/

/-- One iteration of the inner `for _ in range(8)` loop of
`_calculate_crc`: `if crc & 0x0001: crc >>= 1; crc ^= 0xA001 else: crc >>= 1`. -/
def crcRound (c : Nat) : Nat :=
  if c &&& 0x0001 ≠ 0 then (c >>> 1) ^^^ 0xA001 else c >>> 1

/-- Processing of one data byte in `_calculate_crc`:
`crc ^= byte` followed by eight `crcRound` iterations
(the `for _ in range(8)` loop, modelled as a fold over `List.range 8`). -/
def crcByte (crc byte : Nat) : Nat :=
  (List.range 8).foldl (fun c _ => crcRound c) (crc ^^^ byte)

/-- The running 16-bit CRC value of `_calculate_crc` just before
`to_bytes`: initial value `0xFFFF`, folding `crcByte` over the data. -/
def crcFold (data : List Nat) : Nat :=
  data.foldl crcByte 0xFFFF

/-- Translation of `ModbusRTU._calculate_crc` (modbus_rtu.py:62-73):
the fold above followed by `crc.to_bytes(2, "little")`, whose semantics
for a value `< 2^16` is the two-byte little-endian list. -/
def _calculate_crc (data : List Nat) : List Nat :=
  [crcFold data % 256, crcFold data / 256 % 256]

/-! Spec-side CRC definition, used only to compare against the source
translation above (refinement). -/

/-- Modelled from the spec: "if low bit set, shift right and XOR with
0xA001, else shift right", written with `%` and `/` as the spec words it. -/
def crcSpecRound (c : Nat) : Nat :=
  if c % 2 = 1 then (c / 2) ^^^ 0xA001 else c / 2

/-- Modelled from the spec: "iterate 8 times", as explicit recursion. -/
def crcSpecIter : Nat → Nat → Nat
  | c, 0 => c
  | c, n + 1 => crcSpecIter (crcSpecRound c) n

/-- Modelled from the spec: "initial value 0xFFFF; for each byte, XOR
into the running value, then iterate 8 times". -/
def crcSpecFold : Nat → List Nat → Nat
  | c, [] => c
  | c, b :: bs => crcSpecFold (crcSpecIter (c ^^^ b) 8) bs

/-- Modelled from the spec: the CRC "returned as 2 bytes, little-endian". -/
def crcSpecCompute (data : List Nat) : List Nat :=
  [crcSpecFold 0xFFFF data % 256, crcSpecFold 0xFFFF data / 256 % 256]

theorem crcRound_eq_spec (c : Nat) : crcRound c = crcSpecRound c := by
  unfold crcRound crcSpecRound
  have h1 : c &&& 1 = c % 2 := Nat.and_one_is_mod c
  have h2 : c >>> 1 = c / 2 := Nat.shiftRight_one c
  rw [h1, h2]
  rcases Nat.mod_two_eq_zero_or_one c with h | h <;> simp [h]

theorem crcByte_eq_spec (c b : Nat) : crcByte c b = crcSpecIter (c ^^^ b) 8 := by
  show (List.range 8).foldl (fun c _ => crcRound c) (c ^^^ b) = _
  simp only [List.range_succ, List.foldl_append, List.foldl_cons, List.foldl_nil,
    List.range_zero, crcSpecIter, crcRound_eq_spec]

theorem crcFold_eq_spec (data : List Nat) : crcFold data = crcSpecFold 0xFFFF data := by
  unfold crcFold
  suffices h : ∀ (l : List Nat) (c : Nat), l.foldl crcByte c = crcSpecFold c l from h data 0xFFFF
  intro l
  induction l with
  | nil => intro c; rfl
  | cons b bs ih =>
    intro c
    rw [List.foldl_cons, ih, crcByte_eq_spec]
    rfl

theorem xor_lt_65536 {a b : Nat} (ha : a < 65536) (hb : b < 65536) : a ^^^ b < 65536 := by
  have h : a ^^^ b < 2 ^ 16 :=
    Nat.xor_lt_two_pow (Nat.lt_of_lt_of_eq ha (by norm_num)) (Nat.lt_of_lt_of_eq hb (by norm_num))
  exact Nat.lt_of_lt_of_eq h (by norm_num)

theorem crcRound_lt (c : Nat) (h : c < 65536) : crcRound c < 65536 := by
  unfold crcRound
  rw [Nat.shiftRight_one]
  split
  · exact xor_lt_65536 (Nat.lt_of_le_of_lt (Nat.div_le_self c 2) h) (by norm_num)
  · exact Nat.lt_of_le_of_lt (Nat.div_le_self c 2) h

theorem crcByte_lt (c b : Nat) (hc : c < 65536) (hb : b < 256) : crcByte c b < 65536 := by
  unfold crcByte
  have h0 : c ^^^ b < 65536 := xor_lt_65536 hc (lt_trans hb (by norm_num))
  simp only [List.range_succ, List.foldl_append, List.foldl_cons, List.foldl_nil,
    List.range_zero]
  exact crcRound_lt _ (crcRound_lt _ (crcRound_lt _ (crcRound_lt _
    (crcRound_lt _ (crcRound_lt _ (crcRound_lt _ (crcRound_lt _ h0)))))))

theorem crcFold_lt (data : List Nat) (hb : ∀ b ∈ data, b < 256) : crcFold data < 65536 := by
  unfold crcFold
  suffices h : ∀ (l : List Nat) (c : Nat), (∀ b ∈ l, b < 256) → c < 65536 →
      l.foldl crcByte c < 65536 from h data 0xFFFF hb (by norm_num)
  intro l
  induction l with
  | nil => intro c _ hc; exact hc
  | cons b bs ih =>
    intro c hl hc
    exact ih _ (fun x hx => hl x (List.mem_cons_of_mem _ hx))
      (crcByte_lt c b hc (hl b (List.mem_cons_self _ _)))

/-- C3: the CRC16 computation starts from 0xFFFF, XORs each byte into the
running value then performs 8 shift/0xA001 rounds on it, and the result is
returned as 2 bytes little-endian: the source translation agrees with the
spec-worded algorithm, the running value stays a 16-bit quantity, and the
two returned bytes are the little-endian decomposition of that value. -/
theorem crc16_conforms (data : List Nat) (hb : ∀ b ∈ data, b < 256) :
    _calculate_crc data = crcSpecCompute data ∧
    crcFold data < 65536 ∧
    (_calculate_crc data).getD 0 0 + 256 * (_calculate_crc data).getD 1 0 = crcFold data ∧
    (_calculate_crc data).length = 2 := by
  refine ⟨?_, crcFold_lt data hb, ?_, rfl⟩
  · unfold _calculate_crc crcSpecCompute
    rw [crcFold_eq_spec]
  · have e0 : (_calculate_crc data).getD 0 0 = crcFold data % 256 := rfl
    have e1 : (_calculate_crc data).getD 1 0 = crcFold data / 256 % 256 := rfl
    rw [e0, e1]
    have h := crcFold_lt data hb
    omega

/-- Witness for C3 at the concrete frame `01 03 00 00 00 03`. -/
theorem crc16_conforms_witness :
    (∀ b ∈ [1, 3, 0, 0, 0, 3], b < 256) ∧
    (_calculate_crc [1, 3, 0, 0, 0, 3] = crcSpecCompute [1, 3, 0, 0, 0, 3] ∧
     crcFold [1, 3, 0, 0, 0, 3] < 65536 ∧
     (_calculate_crc [1, 3, 0, 0, 0, 3]).getD 0 0 +
       256 * (_calculate_crc [1, 3, 0, 0, 0, 3]).getD 1 0 = crcFold [1, 3, 0, 0, 0, 3] ∧
     (_calculate_crc [1, 3, 0, 0, 0, 3]).length = 2) :=
  ⟨by decide, crc16_conforms [1, 3, 0, 0, 0, 3] (by decide)⟩

/-! ## RTU receive path (`ModbusRTU._receive_response`, hardware branch) -/

/-- Model of `uart.read(n)` against the byte stream the device emits
within the timeout window: `none` when no byte at all arrives
(MicroPython returns `None`), otherwise up to `n` bytes. -/
def uart_read (n : Nat) (s : List Nat) : Option (List Nat) :=
  if s.length = 0 then Option.none else some (s.take n)

/-- Result of `_receive_response`: `err` models a raised exception
(`response += None` when the second `uart.read` times out with no data),
`noReply` models `return None`, `frame` a returned response. -/
inductive RecvResult
  | err
  | noReply
  | frame (f : List Nat)
deriving DecidableEq

/-- Translation of `ModbusRTU._receive_response` (modbus_rtu.py:94-129),
hardware branch: read 4 bytes; derive the expected frame length from the
function code (count byte + 5 for read codes 1-4, fixed 8 otherwise);
read the remainder; verify the CRC over all bytes but the trailing two. -/
def _receive_response (s : List Nat) : RecvResult :=
  match uart_read 4 s with
  | Option.none => RecvResult.noReply
  | some response =>
    if response.length < 4 then RecvResult.noReply
    else
      let fc := response.getD 1 0
      let expected_len := if fc = 1 ∨ fc = 2 ∨ fc = 3 ∨ fc = 4
        then response.getD 2 0 + 5 else 8
      let response2 :=
        if response.length < expected_len then
          match uart_read (expected_len - response.length) (s.drop 4) with
          | Option.none => Option.none
          | some more => some (response ++ more)
        else some response
      match response2 with
      | Option.none => RecvResult.err
      | some resp =>
        if resp.length < 4 then RecvResult.noReply
        else
          let data := resp.take (resp.length - 2)
          let received_crc := resp.drop (resp.length - 2)
          if received_crc ≠ _calculate_crc data then RecvResult.noReply
          else RecvResult.frame resp

/-- C4: a frame whose trailing two bytes disagree with the CRC16 of the
rest is never surfaced: an empty window (no reply) yields `noReply`, and
every frame returned as valid carries a matching CRC — so a CRC mismatch
can only produce the same `noReply` outcome as silence. -/
theorem crc_mismatch_is_no_reply :
    _receive_response [] = RecvResult.noReply ∧
    ∀ s r, _receive_response s = RecvResult.frame r →
      r.drop (r.length - 2) = _calculate_crc (r.take (r.length - 2)) := by
  refine ⟨rfl, ?_⟩
  intro s r h
  unfold _receive_response at h
  split at h
  · exact absurd h (by simp)
  · split at h
    · exact absurd h (by simp)
    · simp only [] at h
      split at h
      · exact absurd h (by simp)
      · split at h
        · exact absurd h (by simp)
        · split at h
          · exact absurd h (by simp)
          · rename_i hcrc
            rw [not_not] at hcrc
            obtain rfl : r = _ := (RecvResult.frame.injEq _ _).mp h.symm
            exact hcrc

/-! ## RTU channel operations (`ModbusRTU`, one per function code)

Each operation builds a frame, sends it (`_send_request` appends the
CRC), and decodes the reply.  The Python functions return dynamically
typed values — `None`, `False`, `True`, `{"error": code}`, a list of
ints, or a list of bools — and may raise; `PyRes` captures exactly those
shapes, because the TCP handlers branch on them with `is None` /
`isinstance(..., dict)` tests. -/

inductive PyRes
  | exn
  | pynone
  | pybool (b : Bool)
  | pyerror (e : Nat)
  | regs (l : List Nat)
  | bits (l : List Bool)
deriving DecidableEq

/-- Translation of `ModbusRTU._send_request`: the complete frame put on
the wire is the payload with the CRC appended. -/
def _send_request (frame : List Nat) : List Nat :=
  frame ++ _calculate_crc frame

/-- Register-parse loop of the read handlers
(`for i in range(0, byte_count, 2): reg = data[i] << 8 | data[i+1]`);
`none` models the `IndexError` raised when `data` runs out before the
declared byte count is consumed. -/
def parse_registers : List Nat → Nat → Option (List Nat)
  | _, 0 => some []
  | a :: b :: rest, n + 1 => (parse_registers rest (n - 1)).map (fun l => ((a <<< 8) ||| b) :: l)
  | _, _ + 1 => Option.none

/-- Bits of one byte, LSB first: `bool(byte_val & (1 << bit))` for
`bit in range(8)`. -/
def bits_of_byte (byte_val : Nat) : List Bool :=
  (List.range 8).map (fun bit => (byte_val &&& (1 <<< bit)) != 0)

/-- Bit-unpack loop of `read_coils` / `read_discrete_inputs` /
`_handle_write_multiple_coils`: append the bits of each data byte while
fewer than `count` values have been collected. -/
def unpack_bits (data : List Nat) (count : Nat) : List Bool :=
  ((data.map bits_of_byte).flatten).take count

/-- Bit-pack loop of `write_multiple_coils` / the read-coils response:
for each of `byte_count` bytes, set bit `bit` when
`coil_index < len(values) and values[coil_index]`. -/
def pack_bits (values : List Bool) (byte_count : Nat) : List Nat :=
  (List.range byte_count).map (fun i =>
    (List.range 8).foldl (fun byte_val bit =>
      if values.getD (i * 8 + bit) false then byte_val ||| (1 <<< bit) else byte_val) 0)

/-- Translation of `ModbusRTU.read_holding_registers` (FC 0x03):
returns the Python result together with the frame sent on the bus. -/
def read_holding_registers (slave_id start_addr count : Nat) (s : List Nat) :
    PyRes × List Nat :=
  let frame := [slave_id, 0x03, (start_addr >>> 8) &&& 0xFF, start_addr &&& 0xFF,
                (count >>> 8) &&& 0xFF, count &&& 0xFF]
  let sent := _send_request frame
  let res := match _receive_response s with
    | RecvResult.err => PyRes.exn
    | RecvResult.noReply => PyRes.pynone
    | RecvResult.frame response =>
      if response.getD 1 0 &&& 0x80 ≠ 0 then PyRes.pyerror (response.getD 2 0)
      else
        let byte_count := response.getD 2 0
        let data := (response.drop 3).take byte_count
        match parse_registers data byte_count with
        | Option.none => PyRes.exn
        | some registers => PyRes.regs registers
  (res, sent)

/-- Translation of `ModbusRTU.read_input_registers` (FC 0x04). -/
def read_input_registers (slave_id start_addr count : Nat) (s : List Nat) :
    PyRes × List Nat :=
  let frame := [slave_id, 0x04, (start_addr >>> 8) &&& 0xFF, start_addr &&& 0xFF,
                (count >>> 8) &&& 0xFF, count &&& 0xFF]
  let sent := _send_request frame
  let res := match _receive_response s with
    | RecvResult.err => PyRes.exn
    | RecvResult.noReply => PyRes.pynone
    | RecvResult.frame response =>
      if response.getD 1 0 &&& 0x80 ≠ 0 then PyRes.pyerror (response.getD 2 0)
      else
        let byte_count := response.getD 2 0
        let data := (response.drop 3).take byte_count
        match parse_registers data byte_count with
        | Option.none => PyRes.exn
        | some registers => PyRes.regs registers
  (res, sent)

/-- Translation of `ModbusRTU.read_coils` (FC 0x01). -/
def read_coils (slave_id start_addr count : Nat) (s : List Nat) : PyRes × List Nat :=
  let frame := [slave_id, 0x01, (start_addr >>> 8) &&& 0xFF, start_addr &&& 0xFF,
                (count >>> 8) &&& 0xFF, count &&& 0xFF]
  let sent := _send_request frame
  let res := match _receive_response s with
    | RecvResult.err => PyRes.exn
    | RecvResult.noReply => PyRes.pynone
    | RecvResult.frame response =>
      if response.getD 1 0 &&& 0x80 ≠ 0 then PyRes.pyerror (response.getD 2 0)
      else
        let byte_count := response.getD 2 0
        let data := (response.drop 3).take byte_count
        PyRes.bits (unpack_bits data count)
  (res, sent)

/-- Translation of `ModbusRTU.read_discrete_inputs` (FC 0x02). -/
def read_discrete_inputs (slave_id start_addr count : Nat) (s : List Nat) :
    PyRes × List Nat :=
  let frame := [slave_id, 0x02, (start_addr >>> 8) &&& 0xFF, start_addr &&& 0xFF,
                (count >>> 8) &&& 0xFF, count &&& 0xFF]
  let sent := _send_request frame
  let res := match _receive_response s with
    | RecvResult.err => PyRes.exn
    | RecvResult.noReply => PyRes.pynone
    | RecvResult.frame response =>
      if response.getD 1 0 &&& 0x80 ≠ 0 then PyRes.pyerror (response.getD 2 0)
      else
        let byte_count := response.getD 2 0
        let data := (response.drop 3).take byte_count
        PyRes.bits (unpack_bits data count)
  (res, sent)

/-- Translation of `ModbusRTU.write_single_register` (FC 0x06).
On timeout it returns `False` (`PyRes.pybool false`), not `None`. -/
def write_single_register (slave_id register_addr value : Nat) (s : List Nat) :
    PyRes × List Nat :=
  let frame := [slave_id, 0x06, (register_addr >>> 8) &&& 0xFF, register_addr &&& 0xFF,
                (value >>> 8) &&& 0xFF, value &&& 0xFF]
  let sent := _send_request frame
  let res := match _receive_response s with
    | RecvResult.err => PyRes.exn
    | RecvResult.noReply => PyRes.pybool false
    | RecvResult.frame response =>
      if response.getD 1 0 &&& 0x80 ≠ 0 then PyRes.pyerror (response.getD 2 0)
      else PyRes.pybool true
  (res, sent)

/-- Translation of `ModbusRTU.write_multiple_registers` (FC 0x10). -/
def write_multiple_registers (slave_id start_addr : Nat) (values : List Nat)
    (s : List Nat) : PyRes × List Nat :=
  let count := values.length
  let byte_count := count * 2
  let frame := [slave_id, 0x10, (start_addr >>> 8) &&& 0xFF, start_addr &&& 0xFF,
                (count >>> 8) &&& 0xFF, count &&& 0xFF, byte_count] ++
    (values.map (fun value => [(value >>> 8) &&& 0xFF, value &&& 0xFF])).flatten
  let sent := _send_request frame
  let res := match _receive_response s with
    | RecvResult.err => PyRes.exn
    | RecvResult.noReply => PyRes.pybool false
    | RecvResult.frame response =>
      if response.getD 1 0 &&& 0x80 ≠ 0 then PyRes.pyerror (response.getD 2 0)
      else PyRes.pybool true
  (res, sent)

/-- Translation of `ModbusRTU.write_single_coil` (FC 0x05):
`coil_value = 0xFF00 if value else 0x0000`. -/
def write_single_coil (slave_id coil_addr : Nat) (value : Bool) (s : List Nat) :
    PyRes × List Nat :=
  let coil_value := if value then 0xFF00 else 0x0000
  let frame := [slave_id, 0x05, (coil_addr >>> 8) &&& 0xFF, coil_addr &&& 0xFF,
                (coil_value >>> 8) &&& 0xFF, coil_value &&& 0xFF]
  let sent := _send_request frame
  let res := match _receive_response s with
    | RecvResult.err => PyRes.exn
    | RecvResult.noReply => PyRes.pybool false
    | RecvResult.frame response =>
      if response.getD 1 0 &&& 0x80 ≠ 0 then PyRes.pyerror (response.getD 2 0)
      else PyRes.pybool true
  (res, sent)

/-- Translation of `ModbusRTU.write_multiple_coils` (FC 0x0F). -/
def write_multiple_coils (slave_id start_addr : Nat) (values : List Bool)
    (s : List Nat) : PyRes × List Nat :=
  let count := values.length
  let byte_count := (count + 7) / 8
  let frame := [slave_id, 0x0F, (start_addr >>> 8) &&& 0xFF, start_addr &&& 0xFF,
                (count >>> 8) &&& 0xFF, count &&& 0xFF, byte_count] ++
    pack_bits values byte_count
  let sent := _send_request frame
  let res := match _receive_response s with
    | RecvResult.err => PyRes.exn
    | RecvResult.noReply => PyRes.pybool false
    | RecvResult.frame response =>
      if response.getD 1 0 &&& 0x80 ≠ 0 then PyRes.pyerror (response.getD 2 0)
      else PyRes.pybool true
  (res, sent)

/-! ## Modbus TCP server (`modbus_tcp_server.py`)

Each `_handle_*` returns the response PDU (`Option.none` models an
exception propagating out of the handler, caught by
`_process_modbus_request`) together with the list of complete frames the
RTU layer put on the bus during the call — empty exactly when the bus
was never touched.  The TCP handlers branch on the dynamically typed RTU
result: `if result is None` matches only `PyRes.pynone`,
`isinstance(result, dict) and "error" in result` only `PyRes.pyerror`,
and the final `else` everything remaining (in particular the `False`
returned by the write operations on timeout). -/

/-- Big-endian 16-bit field, the semantics of `struct.unpack(">H", ...)`
applied to two bytes. -/
def be16 (hi lo : Nat) : Nat := hi * 256 + lo

/-- Big-endian encoding of one 16-bit value, the semantics of
`struct.pack(">H", v)` for `v < 65536` (larger values raise in Python;
the model reduces them mod 2^16, which no reachable call does). -/
def pack_u16be (v : Nat) : List Nat := [v / 256 % 256, v % 256]

/-- Translation of `ModbusTCPServer._handle_read_holding_registers`. -/
def _handle_read_holding_registers (unit_id : Nat) (pdu s : List Nat) :
    Option (List Nat) × List (List Nat) :=
  if pdu.length < 5 then (some [0x83, 0x03], [])
  else
    let start_addr := be16 (pdu.getD 1 0) (pdu.getD 2 0)
    let count := be16 (pdu.getD 3 0) (pdu.getD 4 0)
    let result := read_holding_registers unit_id start_addr count s
    match result.1 with
    | PyRes.exn => (Option.none, [result.2])
    | PyRes.pynone => (some [0x83, 0x04], [result.2])
    | PyRes.pyerror e => (some [0x83, e], [result.2])
    | PyRes.regs l => (some ([0x03, l.length * 2] ++ (l.map pack_u16be).flatten), [result.2])
    | _ => (Option.none, [result.2])

/-- Translation of `ModbusTCPServer._handle_read_input_registers`. -/
def _handle_read_input_registers (unit_id : Nat) (pdu s : List Nat) :
    Option (List Nat) × List (List Nat) :=
  if pdu.length < 5 then (some [0x84, 0x03], [])
  else
    let start_addr := be16 (pdu.getD 1 0) (pdu.getD 2 0)
    let count := be16 (pdu.getD 3 0) (pdu.getD 4 0)
    let result := read_input_registers unit_id start_addr count s
    match result.1 with
    | PyRes.exn => (Option.none, [result.2])
    | PyRes.pynone => (some [0x84, 0x04], [result.2])
    | PyRes.pyerror e => (some [0x84, e], [result.2])
    | PyRes.regs l => (some ([0x04, l.length * 2] ++ (l.map pack_u16be).flatten), [result.2])
    | _ => (Option.none, [result.2])

/-- Translation of `ModbusTCPServer._handle_read_coils`. -/
def _handle_read_coils (unit_id : Nat) (pdu s : List Nat) :
    Option (List Nat) × List (List Nat) :=
  if pdu.length < 5 then (some [0x81, 0x03], [])
  else
    let start_addr := be16 (pdu.getD 1 0) (pdu.getD 2 0)
    let count := be16 (pdu.getD 3 0) (pdu.getD 4 0)
    let result := read_coils unit_id start_addr count s
    match result.1 with
    | PyRes.exn => (Option.none, [result.2])
    | PyRes.pynone => (some [0x81, 0x04], [result.2])
    | PyRes.pyerror e => (some [0x81, e], [result.2])
    | PyRes.bits l =>
      (some ([0x01, (l.length + 7) / 8] ++ pack_bits l ((l.length + 7) / 8)), [result.2])
    | _ => (Option.none, [result.2])

/-- Translation of `ModbusTCPServer._handle_read_discrete_inputs`. -/
def _handle_read_discrete_inputs (unit_id : Nat) (pdu s : List Nat) :
    Option (List Nat) × List (List Nat) :=
  if pdu.length < 5 then (some [0x82, 0x03], [])
  else
    let start_addr := be16 (pdu.getD 1 0) (pdu.getD 2 0)
    let count := be16 (pdu.getD 3 0) (pdu.getD 4 0)
    let result := read_discrete_inputs unit_id start_addr count s
    match result.1 with
    | PyRes.exn => (Option.none, [result.2])
    | PyRes.pynone => (some [0x82, 0x04], [result.2])
    | PyRes.pyerror e => (some [0x82, e], [result.2])
    | PyRes.bits l =>
      (some ([0x02, (l.length + 7) / 8] ++ pack_bits l ((l.length + 7) / 8)), [result.2])
    | _ => (Option.none, [result.2])

/-- Translation of `ModbusTCPServer._handle_write_single_register`:
`if result is None` (never true for a write), `elif isinstance(result,
dict) and "error" in result`, else echo the request PDU. -/
def _handle_write_single_register (unit_id : Nat) (pdu s : List Nat) :
    Option (List Nat) × List (List Nat) :=
  if pdu.length < 5 then (some [0x86, 0x03], [])
  else
    let register_addr := be16 (pdu.getD 1 0) (pdu.getD 2 0)
    let value := be16 (pdu.getD 3 0) (pdu.getD 4 0)
    let result := write_single_register unit_id register_addr value s
    match result.1 with
    | PyRes.exn => (Option.none, [result.2])
    | PyRes.pynone => (some [0x86, 0x04], [result.2])
    | PyRes.pyerror e => (some [0x86, e], [result.2])
    | _ => (some pdu, [result.2])

/-- Pairing loop of `_handle_write_multiple_registers`
(`struct.unpack(">H", pdu[6+i:6+i+2])` for `i in range(0, byte_count, 2)`);
total because the handler has already checked `byte_count = count * 2`
(even) and `len(pdu) >= 6 + byte_count`. -/
def regs_of_bytes : List Nat → List Nat
  | hi :: lo :: rest => be16 hi lo :: regs_of_bytes rest
  | _ => []

/-- Translation of `ModbusTCPServer._handle_write_multiple_registers`:
this handler does validate `byte_count != count * 2`. -/
def _handle_write_multiple_registers (unit_id : Nat) (pdu s : List Nat) :
    Option (List Nat) × List (List Nat) :=
  if pdu.length < 6 then (some [0x90, 0x03], [])
  else
    let start_addr := be16 (pdu.getD 1 0) (pdu.getD 2 0)
    let count := be16 (pdu.getD 3 0) (pdu.getD 4 0)
    let byte_count := pdu.getD 5 0
    if pdu.length < 6 + byte_count then (some [0x90, 0x03], [])
    else if byte_count ≠ count * 2 then (some [0x90, 0x03], [])
    else
      let values := regs_of_bytes ((pdu.drop 6).take byte_count)
      let result := write_multiple_registers unit_id start_addr values s
      match result.1 with
      | PyRes.exn => (Option.none, [result.2])
      | PyRes.pynone => (some [0x90, 0x04], [result.2])
      | PyRes.pyerror e => (some [0x90, e], [result.2])
      | _ => (some (pdu.take 5), [result.2])

/-- Translation of `ModbusTCPServer._handle_write_single_coil`:
`value = coil_value == 0xFF00`. -/
def _handle_write_single_coil (unit_id : Nat) (pdu s : List Nat) :
    Option (List Nat) × List (List Nat) :=
  if pdu.length < 5 then (some [0x85, 0x03], [])
  else
    let coil_addr := be16 (pdu.getD 1 0) (pdu.getD 2 0)
    let coil_value := be16 (pdu.getD 3 0) (pdu.getD 4 0)
    let value := coil_value = 0xFF00
    let result := write_single_coil unit_id coil_addr (decide value) s
    match result.1 with
    | PyRes.exn => (Option.none, [result.2])
    | PyRes.pynone => (some [0x85, 0x04], [result.2])
    | PyRes.pyerror e => (some [0x85, e], [result.2])
    | _ => (some pdu, [result.2])

/-- Translation of `ModbusTCPServer._handle_write_multiple_coils`:
note there is no `byte_count != ceil(count/8)` consistency check here
(unlike `_handle_write_multiple_registers`). -/
def _handle_write_multiple_coils (unit_id : Nat) (pdu s : List Nat) :
    Option (List Nat) × List (List Nat) :=
  if pdu.length < 6 then (some [0x8F, 0x03], [])
  else
    let start_addr := be16 (pdu.getD 1 0) (pdu.getD 2 0)
    let count := be16 (pdu.getD 3 0) (pdu.getD 4 0)
    let byte_count := pdu.getD 5 0
    if pdu.length < 6 + byte_count then (some [0x8F, 0x03], [])
    else
      let values := unpack_bits ((pdu.drop 6).take byte_count) count
      let result := write_multiple_coils unit_id start_addr values s
      match result.1 with
      | PyRes.exn => (Option.none, [result.2])
      | PyRes.pynone => (some [0x8F, 0x04], [result.2])
      | PyRes.pyerror e => (some [0x8F, e], [result.2])
      | _ => (some (pdu.take 5), [result.2])

/-- Translation of `ModbusTCPServer._process_modbus_request`: empty PDU
guard, dispatch on the function code, unsupported code → `0x01`, and the
surrounding `try/except` turning any raised exception into
`function_code | 0x80, 0x04`. -/
def _process_modbus_request (unit_id : Nat) (pdu s : List Nat) :
    List Nat × List (List Nat) :=
  if pdu.length < 1 then ([0x80, 0x01], [])
  else
    let function_code := pdu.getD 0 0
    let out :=
      if function_code = 0x03 then _handle_read_holding_registers unit_id pdu s
      else if function_code = 0x04 then _handle_read_input_registers unit_id pdu s
      else if function_code = 0x06 then _handle_write_single_register unit_id pdu s
      else if function_code = 0x10 then _handle_write_multiple_registers unit_id pdu s
      else if function_code = 0x01 then _handle_read_coils unit_id pdu s
      else if function_code = 0x02 then _handle_read_discrete_inputs unit_id pdu s
      else if function_code = 0x05 then _handle_write_single_coil unit_id pdu s
      else if function_code = 0x0F then _handle_write_multiple_coils unit_id pdu s
      else (some [function_code ||| 0x80, 0x01], [])
    match out.1 with
    | Option.none => ([function_code ||| 0x80, 0x04], out.2)
    | some response => (response, out.2)

/-- Model of `ModbusTCPServer._read_exact`: exactly `n` bytes from the
connection's incoming stream, or `None` when the peer's data runs out
(connection closed). -/
def _read_exact (n : Nat) (inp : List Nat) : Option (List Nat) :=
  if n ≤ inp.length then some (inp.take n) else Option.none

/-- Semantics of `struct.pack(">HHHB", transaction_id, 0, response_length,
unit_id)` building the response MBAP header. -/
def pack_mbap (transaction_id response_length unit_id : Nat) : List Nat :=
  [transaction_id / 256 % 256, transaction_id % 256, 0, 0,
   response_length / 256 % 256, response_length % 256, unit_id % 256]

/-- Outcome of one iteration of the `handle_client` loop: the connection
is closed (`break` / no bytes written), no response is sent but the loop
continues (`if response_pdu:` falsy), or a full ADU is written back. -/
inductive StepResult
  | closed
  | silent
  | reply (adu : List Nat)
deriving DecidableEq

/-- Translation of one iteration of `ModbusTCPServer.handle_client`
(modbus_tcp_server.py:36-70): read the 7-byte MBAP header, unpack
`>HHHB`, abort on non-zero protocol id, read `length - 1` PDU bytes
(`if not pdu: break` — an empty PDU closes the connection), process the
request and send back the reply with a rebuilt MBAP header. -/
def handle_client_step (inp s : List Nat) : StepResult :=
  match _read_exact 7 inp with
  | Option.none => StepResult.closed
  | some header =>
    let transaction_id := be16 (header.getD 0 0) (header.getD 1 0)
    let protocol_id := be16 (header.getD 2 0) (header.getD 3 0)
    let length := be16 (header.getD 4 0) (header.getD 5 0)
    let unit_id := header.getD 6 0
    if protocol_id ≠ 0 then StepResult.closed
    else
      match _read_exact (length - 1) (inp.drop 7) with
      | Option.none => StepResult.closed
      | some pdu =>
        if pdu.isEmpty then StepResult.closed
        else
          let out := _process_modbus_request unit_id pdu s
          if out.1.isEmpty then StepResult.silent
          else StepResult.reply
            (pack_mbap transaction_id (out.1.length + 1) unit_id ++ out.1)

/-! ## List access helpers -/

theorem getD_take_lt (l : List Nat) {n i : Nat} (h : i < n) :
    (l.take n).getD i 0 = l.getD i 0 := by
  rw [List.getD_eq_getD_get?, List.getD_eq_getD_get?, List.get?_eq_getElem?,
    List.get?_eq_getElem?, List.getElem?_take_of_lt h]

theorem getD_mem (l : List Nat) {n : Nat} (h : n < l.length) : l.getD n 0 ∈ l := by
  rw [List.getD_eq_getElem l 0 h]
  exact List.getElem_mem h

/-! ## Claim theorems on request processing -/

set_option maxRecDepth 4000 in
/-- C1 (code bug): with a silent RTU device (`_receive_response [] =
noReply`) the read handlers do reply `function_code|0x80, 0x04`, but every
write handler echoes the request back as a success, because the RTU write
operations return `False` on timeout while the handlers test
`result is None`; the `0x86/0x90/0x85/0x8F, 0x04` branches are dead. -/
theorem write_timeout_reported_as_success :
    _receive_response [] = RecvResult.noReply ∧
    (_handle_read_holding_registers 1 [0x03, 0, 0, 0, 3] []).1 = some [0x83, 0x04] ∧
    (_handle_read_input_registers 1 [0x04, 0, 0, 0, 3] []).1 = some [0x84, 0x04] ∧
    (_handle_read_coils 1 [0x01, 0, 0, 0, 3] []).1 = some [0x81, 0x04] ∧
    (_handle_read_discrete_inputs 1 [0x02, 0, 0, 0, 3] []).1 = some [0x82, 0x04] ∧
    (_handle_write_single_register 1 [0x06, 0, 1, 0, 2] []).1 = some [0x06, 0, 1, 0, 2] ∧
    (_handle_write_single_coil 1 [0x05, 0, 1, 0xFF, 0] []).1 = some [0x05, 0, 1, 0xFF, 0] ∧
    (_handle_write_multiple_registers 1 [0x10, 0, 0, 0, 1, 2, 0, 5] []).1 =
      some [0x10, 0, 0, 0, 1] ∧
    (_handle_write_multiple_coils 1 [0x0F, 0, 0, 0, 2, 1, 3] []).1 = some [0x0F, 0, 0, 0, 2] ∧
    (_process_modbus_request 1 [0x06, 0, 1, 0, 2] []).1 ≠ [0x86, 0x04] := by
  decide

set_option maxRecDepth 4000 in
/-- C2 (code bug): a write-multiple-coils PDU declaring `count = 10` with
`byte_count = 1 ≠ ceil(10/8) = 2` is not rejected with `8F 03`: the RTU bus
is accessed (one frame is sent, carrying the 8 unpacked coils) and the
handler replies with the success echo. -/
theorem wmc_inconsistent_bytecount_reaches_bus :
    (1 : Nat) ≠ (10 + 7) / 8 ∧
    _handle_write_multiple_coils 1 [0x0F, 0, 0, 0, 10, 1, 0xFF] [] =
      (some [0x0F, 0, 0, 0, 10], [[1, 0x0F, 0, 0, 0, 8, 1, 0xFF, 190, 213]]) ∧
    (_handle_write_multiple_coils 1 [0x0F, 0, 0, 0, 10, 1, 0xFF] []).2 ≠ [] ∧
    (_handle_write_multiple_coils 1 [0x0F, 0, 0, 0, 10, 1, 0xFF] []).1 ≠ some [0x8F, 0x03] := by
  decide

set_option maxRecDepth 4000 in
/-- Witness for C4: a well-formed 8-byte write echo frame is accepted and
its trailing bytes are the CRC of the rest. -/
theorem crc_mismatch_is_no_reply_witness :
    _receive_response [1, 6, 0, 1, 0, 2, 89, 203] =
      RecvResult.frame [1, 6, 0, 1, 0, 2, 89, 203] ∧
    [1, 6, 0, 1, 0, 2, 89, 203].drop ([1, 6, 0, 1, 0, 2, 89, 203].length - 2) =
      _calculate_crc ([1, 6, 0, 1, 0, 2, 89, 203].take ([1, 6, 0, 1, 0, 2, 89, 203].length - 2)) :=
  ⟨by decide, crc_mismatch_is_no_reply.2 [1, 6, 0, 1, 0, 2, 89, 203]
    [1, 6, 0, 1, 0, 2, 89, 203] (by decide)⟩

theorem write_single_coil_sent (slave_id coil_addr : Nat) (v : Bool) (s : List Nat) :
    (write_single_coil slave_id coil_addr v s).2 =
      _send_request [slave_id, 0x05, (coil_addr >>> 8) &&& 0xFF, coil_addr &&& 0xFF,
        if v then 0xFF else 0x00, 0x00] := by
  cases v <;> rfl

theorem handle_wsc_frames (unit_id : Nat) (pdu s : List Nat) (h : 5 ≤ pdu.length) :
    (_handle_write_single_coil unit_id pdu s).2 =
      [(write_single_coil unit_id (be16 (pdu.getD 1 0) (pdu.getD 2 0))
        (decide (be16 (pdu.getD 3 0) (pdu.getD 4 0) = 0xFF00)) s).2] := by
  unfold _handle_write_single_coil
  rw [if_neg (by omega)]
  dsimp only
  split <;> rfl

/-- C9: for every structurally long-enough write-single-coil PDU, the frame
forwarded to the bus encodes ON (`FF 00` value bytes) exactly when the
request's 16-bit value field is `0xFF00`, and any other value (such as
`0x0001`) is forwarded as OFF (`00 00`) — the request is never rejected on
account of a nonstandard value. -/
theorem write_single_coil_on_iff_ff00 (unit_id : Nat) (pdu s : List Nat)
    (h : 5 ≤ pdu.length) :
    (_handle_write_single_coil unit_id pdu s).2 =
      [_send_request [unit_id, 0x05,
        (be16 (pdu.getD 1 0) (pdu.getD 2 0) >>> 8) &&& 0xFF,
        be16 (pdu.getD 1 0) (pdu.getD 2 0) &&& 0xFF,
        if be16 (pdu.getD 3 0) (pdu.getD 4 0) = 0xFF00 then 0xFF else 0x00,
        0x00]] := by
  rw [handle_wsc_frames unit_id pdu s h, write_single_coil_sent]
  by_cases hv : be16 (pdu.getD 3 0) (pdu.getD 4 0) = 0xFF00 <;> simp [hv]

/-- Witness for C9 at the nonstandard value `0x0001`: the forwarded frame
carries `00 00` (OFF). -/
theorem write_single_coil_on_iff_ff00_witness :
    5 ≤ ([5, 0, 1, 0, 1] : List Nat).length ∧
    (_handle_write_single_coil 1 [5, 0, 1, 0, 1] []).2 =
      [_send_request [1, 0x05,
        (be16 ([5, 0, 1, 0, 1].getD 1 0) ([5, 0, 1, 0, 1].getD 2 0) >>> 8) &&& 0xFF,
        be16 ([5, 0, 1, 0, 1].getD 1 0) ([5, 0, 1, 0, 1].getD 2 0) &&& 0xFF,
        if be16 ([5, 0, 1, 0, 1].getD 3 0) ([5, 0, 1, 0, 1].getD 4 0) = 0xFF00 then 0xFF
        else 0x00,
        0x00]] :=
  ⟨by decide, write_single_coil_on_iff_ff00 1 [5, 0, 1, 0, 1] [] (by decide)⟩

/-- C6: an MBAP header carrying a non-zero protocol id makes the
connection handler break out of its loop (`StepResult.closed`, which
carries no response bytes) without any reply being produced. -/
theorem nonzero_protocol_closes (inp s : List Nat) (h7 : 7 ≤ inp.length)
    (hpid : be16 (inp.getD 2 0) (inp.getD 3 0) ≠ 0) :
    handle_client_step inp s = StepResult.closed := by
  unfold handle_client_step _read_exact
  rw [if_pos h7]
  dsimp only
  rw [getD_take_lt inp (by norm_num), getD_take_lt inp (by norm_num)]
  rw [if_pos hpid]

/-- Witness for C6: protocol id 1 closes the connection. -/
theorem nonzero_protocol_closes_witness :
    (7 ≤ ([0, 1, 0, 1, 0, 2, 1, 43] : List Nat).length ∧
     be16 ([0, 1, 0, 1, 0, 2, 1, 43].getD 2 0) ([0, 1, 0, 1, 0, 2, 1, 43].getD 3 0) ≠ 0) ∧
    handle_client_step [0, 1, 0, 1, 0, 2, 1, 43] [] = StepResult.closed :=
  ⟨⟨by decide, by decide⟩,
    nonzero_protocol_closes [0, 1, 0, 1, 0, 2, 1, 43] [] (by decide) (by decide)⟩

/-- C10 counterexample: a request whose MBAP declares length 1 (empty
PDU) closes the connection — the server does not reply `80 01`. -/
theorem empty_pdu_closes_connection_cex :
    handle_client_step [0, 1, 0, 0, 0, 1, 1] [] = StepResult.closed := by
  decide

/-- C10 (amended): an inbound request with a valid protocol id whose
declared length yields an empty PDU closes the connection without a
response (`if not pdu: break`); the empty-PDU guard inside
`_process_modbus_request`, which would reply `80 01`, is unreachable
from the connection loop. -/
theorem empty_pdu_closes_connection (inp s : List Nat) (h7 : 7 ≤ inp.length)
    (hpid : be16 (inp.getD 2 0) (inp.getD 3 0) = 0)
    (hlen : be16 (inp.getD 4 0) (inp.getD 5 0) = 1) :
    handle_client_step inp s = StepResult.closed ∧
    (_process_modbus_request (inp.getD 6 0) [] s).1 = [0x80, 0x01] := by
  refine ⟨?_, rfl⟩
  unfold handle_client_step _read_exact
  rw [if_pos h7]
  dsimp only
  rw [getD_take_lt inp (by norm_num), getD_take_lt inp (by norm_num),
    getD_take_lt inp (by norm_num), getD_take_lt inp (by norm_num)]
  rw [if_neg (not_not.mpr hpid), hlen]
  norm_num

/-- Witness for the amended C10. -/
theorem empty_pdu_closes_connection_witness :
    (7 ≤ ([0, 2, 0, 0, 0, 1, 9] : List Nat).length ∧
     be16 ([0, 2, 0, 0, 0, 1, 9].getD 2 0) ([0, 2, 0, 0, 0, 1, 9].getD 3 0) = 0 ∧
     be16 ([0, 2, 0, 0, 0, 1, 9].getD 4 0) ([0, 2, 0, 0, 0, 1, 9].getD 5 0) = 1) ∧
    (handle_client_step [0, 2, 0, 0, 0, 1, 9] [] = StepResult.closed ∧
     (_process_modbus_request ([0, 2, 0, 0, 0, 1, 9].getD 6 0) [] []).1 = [0x80, 0x01]) :=
  ⟨⟨by decide, by decide, by decide⟩,
    empty_pdu_closes_connection [0, 2, 0, 0, 0, 1, 9] [] (by decide) (by decide) (by decide)⟩

/-! ## Bounds on RTU results, used for the MBAP length-field theorem -/

theorem uart_read_subset {n : Nat} {s x : List Nat} (h : uart_read n s = some x) : x ⊆ s := by
  unfold uart_read at h
  split at h
  · exact absurd h (by simp)
  · injection h with h'
    rw [← h']
    exact List.take_subset n s

theorem assemble_subset {s response r : List Nat} {E : Nat}
    (hresp : response ⊆ s)
    (heq : (if response.length < E then
        match uart_read (E - response.length) (s.drop 4) with
        | Option.none => Option.none
        | some more => some (response ++ more)
      else some response) = some r) :
    ∀ b ∈ r, b ∈ s := by
  split at heq
  · split at heq
    · exact absurd heq (by simp)
    · rename_i more hmore
      injection heq with heq'
      rw [← heq']
      intro b hb
      rcases List.mem_append.mp hb with hb | hb
      · exact hresp hb
      · exact List.drop_subset 4 s (uart_read_subset hmore hb)
  · injection heq with heq'
    rw [← heq']
    exact fun b hb => hresp hb

/-- Every frame surfaced by `_receive_response` has at least 4 bytes and
is made of bytes the device actually sent. -/
theorem receive_frame_props {s r : List Nat} (h : _receive_response s = RecvResult.frame r) :
    4 ≤ r.length ∧ ∀ b ∈ r, b ∈ s := by
  unfold _receive_response at h
  split at h
  · exact absurd h (by simp)
  · rename_i response hread
    split at h
    · exact absurd h (by simp)
    · simp only [] at h
      split at h
      · exact absurd h (by simp)
      · rename_i resp heq
        split at h
        · exact absurd h (by simp)
        · rename_i hrlen
          split at h
          · exact absurd h (by simp)
          · obtain rfl : r = resp := (RecvResult.frame.injEq _ _).mp h.symm
            exact ⟨by omega, assemble_subset (uart_read_subset hread) heq⟩

/-- Bytes of a surfaced frame are below 256 when the device's bytes are. -/
theorem receive_frame_lt {s r : List Nat} (hs : ∀ b ∈ s, b < 256)
    (h : _receive_response s = RecvResult.frame r) : ∀ b ∈ r, b < 256 :=
  fun b hb => hs b ((receive_frame_props h).2 b hb)

theorem parse_registers_length : ∀ (n : Nat) (data l : List Nat),
    parse_registers data n = some l → 2 * l.length ≤ n + 1 := by
  intro n
  induction n using Nat.strong_induction_on with
  | _ n ih =>
    intro data l h
    match n, data with
    | 0, [] =>
      simp only [parse_registers, Option.some.injEq] at h
      simp [← h]
    | 0, [a] =>
      simp only [parse_registers, Option.some.injEq] at h
      simp [← h]
    | 0, a :: b :: rest =>
      simp only [parse_registers, Option.some.injEq] at h
      simp [← h]
    | m + 1, [] => exact absurd h (by simp [parse_registers])
    | m + 1, [a] => exact absurd h (by simp [parse_registers])
    | m + 1, a :: b :: rest =>
      simp only [parse_registers, Option.map_eq_some'] at h
      obtain ⟨l2, hl2, hfl⟩ := h
      have hih := ih (m - 1) (by omega) rest l2 hl2
      rw [← hfl]
      simp only [List.length_cons]
      omega

theorem pack_bits_length (values : List Bool) (byte_count : Nat) :
    (pack_bits values byte_count).length = byte_count := by
  unfold pack_bits
  rw [List.length_map, List.length_range]

theorem unpack_bits_length (data : List Nat) (count : Nat) :
    (unpack_bits data count).length ≤ count := by
  unfold unpack_bits
  rw [List.length_take]
  exact Nat.min_le_left _ _

theorem pack_u16be_flatten_length (l : List Nat) :
    ((l.map pack_u16be).flatten).length = 2 * l.length := by
  induction l with
  | nil => rfl
  | cons a t ih =>
    simp only [List.map_cons, List.flatten_cons, List.length_append, ih, List.length_cons]
    unfold pack_u16be
    simp only [List.length_cons, List.length_nil]
    omega

/-- A register list decoded from a CRC-valid frame holds at most 128
registers (the count byte is below 256). -/
theorem read_holding_registers_regs_bound {slave_id start_addr count : Nat}
    {s : List Nat} {l : List Nat} (hs : ∀ b ∈ s, b < 256)
    (h : (read_holding_registers slave_id start_addr count s).1 = PyRes.regs l) :
    2 * l.length ≤ 256 := by
  unfold read_holding_registers at h
  dsimp only at h
  split at h
  · exact absurd h (by simp)
  · exact absurd h (by simp)
  · rename_i response hframe
    split at h
    · exact absurd h (by simp)
    · split at h
      · exact absurd h (by simp)
      · rename_i registers hparse
        obtain rfl := (PyRes.regs.injEq _ _).mp h
        have hb := parse_registers_length _ _ _ hparse
        have hlen := (receive_frame_props hframe).1
        have hlt : response.getD 2 0 < 256 :=
          receive_frame_lt hs hframe _ (getD_mem response (by omega))
        omega

theorem read_input_registers_regs_bound {slave_id start_addr count : Nat}
    {s : List Nat} {l : List Nat} (hs : ∀ b ∈ s, b < 256)
    (h : (read_input_registers slave_id start_addr count s).1 = PyRes.regs l) :
    2 * l.length ≤ 256 := by
  unfold read_input_registers at h
  dsimp only at h
  split at h
  · exact absurd h (by simp)
  · exact absurd h (by simp)
  · rename_i response hframe
    split at h
    · exact absurd h (by simp)
    · split at h
      · exact absurd h (by simp)
      · rename_i registers hparse
        obtain rfl := (PyRes.regs.injEq _ _).mp h
        have hb := parse_registers_length _ _ _ hparse
        have hlen := (receive_frame_props hframe).1
        have hlt : response.getD 2 0 < 256 :=
          receive_frame_lt hs hframe _ (getD_mem response (by omega))
        omega

theorem read_coils_bits_bound {slave_id start_addr count : Nat} {s : List Nat}
    {l : List Bool} (h : (read_coils slave_id start_addr count s).1 = PyRes.bits l) :
    l.length ≤ count := by
  unfold read_coils at h
  dsimp only at h
  split at h
  · exact absurd h (by simp)
  · exact absurd h (by simp)
  · split at h
    · exact absurd h (by simp)
    · obtain rfl := (PyRes.bits.injEq _ _).mp h
      exact unpack_bits_length _ _

theorem read_discrete_inputs_bits_bound {slave_id start_addr count : Nat} {s : List Nat}
    {l : List Bool} (h : (read_discrete_inputs slave_id start_addr count s).1 = PyRes.bits l) :
    l.length ≤ count := by
  unfold read_discrete_inputs at h
  dsimp only at h
  split at h
  · exact absurd h (by simp)
  · exact absurd h (by simp)
  · split at h
    · exact absurd h (by simp)
    · obtain rfl := (PyRes.bits.injEq _ _).mp h
      exact unpack_bits_length _ _

theorem handle_rhr_len {unit_id : Nat} {pdu s r : List Nat} (hs : ∀ b ∈ s, b < 256)
    (h : (_handle_read_holding_registers unit_id pdu s).1 = some r) :
    r.length ≤ 258 := by
  unfold _handle_read_holding_registers at h
  split at h
  · have h2 : some [0x83, 0x03] = some r := h
    obtain rfl := (Option.some.injEq _ _).mp h2
    simp
  · dsimp only at h
    split at h
    · exact absurd h (by simp)
    · have h2 : some [0x83, 0x04] = some r := h
      obtain rfl := (Option.some.injEq _ _).mp h2
      simp
    · have h2 : some [0x83, _] = some r := h
      obtain rfl := (Option.some.injEq _ _).mp h2
      simp
    · rename_i l heq
      have h2 : some ([0x03, l.length * 2] ++ (l.map pack_u16be).flatten) = some r := h
      obtain rfl := (Option.some.injEq _ _).mp h2
      have hb := read_holding_registers_regs_bound hs heq
      simp only [List.length_append, pack_u16be_flatten_length]
      simp only [List.length_cons, List.length_nil]
      omega
    · exact absurd h (by simp)

theorem handle_rir_len {unit_id : Nat} {pdu s r : List Nat} (hs : ∀ b ∈ s, b < 256)
    (h : (_handle_read_input_registers unit_id pdu s).1 = some r) :
    r.length ≤ 258 := by
  unfold _handle_read_input_registers at h
  split at h
  · have h2 : some [0x84, 0x03] = some r := h
    obtain rfl := (Option.some.injEq _ _).mp h2
    simp
  · dsimp only at h
    split at h
    · exact absurd h (by simp)
    · have h2 : some [0x84, 0x04] = some r := h
      obtain rfl := (Option.some.injEq _ _).mp h2
      simp
    · have h2 : some [0x84, _] = some r := h
      obtain rfl := (Option.some.injEq _ _).mp h2
      simp
    · rename_i l heq
      have h2 : some ([0x04, l.length * 2] ++ (l.map pack_u16be).flatten) = some r := h
      obtain rfl := (Option.some.injEq _ _).mp h2
      have hb := read_input_registers_regs_bound hs heq
      simp only [List.length_append, pack_u16be_flatten_length]
      simp only [List.length_cons, List.length_nil]
      omega
    · exact absurd h (by simp)

theorem handle_rc_len {unit_id : Nat} {pdu s r : List Nat} (hp : ∀ b ∈ pdu, b < 256)
    (h : (_handle_read_coils unit_id pdu s).1 = some r) :
    r.length ≤ 8194 := by
  unfold _handle_read_coils at h
  split at h
  · have h2 : some [0x81, 0x03] = some r := h
    obtain rfl := (Option.some.injEq _ _).mp h2
    simp
  · rename_i hp5
    dsimp only at h
    split at h
    · exact absurd h (by simp)
    · have h2 : some [0x81, 0x04] = some r := h
      obtain rfl := (Option.some.injEq _ _).mp h2
      simp
    · have h2 : some [0x81, _] = some r := h
      obtain rfl := (Option.some.injEq _ _).mp h2
      simp
    · rename_i l heq
      have h2 : some ([0x01, (l.length + 7) / 8] ++ pack_bits l ((l.length + 7) / 8)) =
          some r := h
      obtain rfl := (Option.some.injEq _ _).mp h2
      have hb := read_coils_bits_bound heq
      have h3 : pdu.getD 3 0 < 256 := hp _ (getD_mem pdu (by omega))
      have h4 : pdu.getD 4 0 < 256 := hp _ (getD_mem pdu (by omega))
      have hc : be16 (pdu.getD 3 0) (pdu.getD 4 0) ≤ 65535 := by unfold be16; omega
      simp only [List.length_append, pack_bits_length]
      simp only [List.length_cons, List.length_nil]
      omega
    · exact absurd h (by simp)

theorem handle_rdi_len {unit_id : Nat} {pdu s r : List Nat} (hp : ∀ b ∈ pdu, b < 256)
    (h : (_handle_read_discrete_inputs unit_id pdu s).1 = some r) :
    r.length ≤ 8194 := by
  unfold _handle_read_discrete_inputs at h
  split at h
  · have h2 : some [0x82, 0x03] = some r := h
    obtain rfl := (Option.some.injEq _ _).mp h2
    simp
  · rename_i hp5
    dsimp only at h
    split at h
    · exact absurd h (by simp)
    · have h2 : some [0x82, 0x04] = some r := h
      obtain rfl := (Option.some.injEq _ _).mp h2
      simp
    · have h2 : some [0x82, _] = some r := h
      obtain rfl := (Option.some.injEq _ _).mp h2
      simp
    · rename_i l heq
      have h2 : some ([0x02, (l.length + 7) / 8] ++ pack_bits l ((l.length + 7) / 8)) =
          some r := h
      obtain rfl := (Option.some.injEq _ _).mp h2
      have hb := read_discrete_inputs_bits_bound heq
      have h3 : pdu.getD 3 0 < 256 := hp _ (getD_mem pdu (by omega))
      have h4 : pdu.getD 4 0 < 256 := hp _ (getD_mem pdu (by omega))
      have hc : be16 (pdu.getD 3 0) (pdu.getD 4 0) ≤ 65535 := by unfold be16; omega
      simp only [List.length_append, pack_bits_length]
      simp only [List.length_cons, List.length_nil]
      omega
    · exact absurd h (by simp)

theorem handle_wsr_len {unit_id : Nat} {pdu s r : List Nat}
    (h : (_handle_write_single_register unit_id pdu s).1 = some r) :
    r.length ≤ max pdu.length 2 := by
  unfold _handle_write_single_register at h
  split at h
  · have h2 : some [0x86, 0x03] = some r := h
    obtain rfl := (Option.some.injEq _ _).mp h2
    simp
  · dsimp only at h
    split at h
    · exact absurd h (by simp)
    · have h2 : some [0x86, 0x04] = some r := h
      obtain rfl := (Option.some.injEq _ _).mp h2
      simp
    · have h2 : some [0x86, _] = some r := h
      obtain rfl := (Option.some.injEq _ _).mp h2
      simp
    · have h2 : some pdu = some r := h
      obtain rfl := (Option.some.injEq _ _).mp h2
      exact le_max_left _ _

theorem handle_wsc_len {unit_id : Nat} {pdu s r : List Nat}
    (h : (_handle_write_single_coil unit_id pdu s).1 = some r) :
    r.length ≤ max pdu.length 2 := by
  unfold _handle_write_single_coil at h
  split at h
  · have h2 : some [0x85, 0x03] = some r := h
    obtain rfl := (Option.some.injEq _ _).mp h2
    simp
  · dsimp only at h
    split at h
    · exact absurd h (by simp)
    · have h2 : some [0x85, 0x04] = some r := h
      obtain rfl := (Option.some.injEq _ _).mp h2
      simp
    · have h2 : some [0x85, _] = some r := h
      obtain rfl := (Option.some.injEq _ _).mp h2
      simp
    · have h2 : some pdu = some r := h
      obtain rfl := (Option.some.injEq _ _).mp h2
      exact le_max_left _ _

theorem handle_wmr_len {unit_id : Nat} {pdu s r : List Nat}
    (h : (_handle_write_multiple_registers unit_id pdu s).1 = some r) :
    r.length ≤ 5 := by
  unfold _handle_write_multiple_registers at h
  split at h
  · have h2 : some [0x90, 0x03] = some r := h
    obtain rfl := (Option.some.injEq _ _).mp h2
    simp
  · dsimp only at h
    split at h
    · have h2 : some [0x90, 0x03] = some r := h
      obtain rfl := (Option.some.injEq _ _).mp h2
      simp
    · split at h
      · have h2 : some [0x90, 0x03] = some r := h
        obtain rfl := (Option.some.injEq _ _).mp h2
        simp
      · split at h
        · exact absurd h (by simp)
        · have h2 : some [0x90, 0x04] = some r := h
          obtain rfl := (Option.some.injEq _ _).mp h2
          simp
        · have h2 : some [0x90, _] = some r := h
          obtain rfl := (Option.some.injEq _ _).mp h2
          simp
        · have h2 : some (pdu.take 5) = some r := h
          obtain rfl := (Option.some.injEq _ _).mp h2
          simp

theorem handle_wmc_len {unit_id : Nat} {pdu s r : List Nat}
    (h : (_handle_write_multiple_coils unit_id pdu s).1 = some r) :
    r.length ≤ 5 := by
  unfold _handle_write_multiple_coils at h
  split at h
  · have h2 : some [0x8F, 0x03] = some r := h
    obtain rfl := (Option.some.injEq _ _).mp h2
    simp
  · dsimp only at h
    split at h
    · have h2 : some [0x8F, 0x03] = some r := h
      obtain rfl := (Option.some.injEq _ _).mp h2
      simp
    · split at h
      · exact absurd h (by simp)
      · have h2 : some [0x8F, 0x04] = some r := h
        obtain rfl := (Option.some.injEq _ _).mp h2
        simp
      · have h2 : some [0x8F, _] = some r := h
        obtain rfl := (Option.some.injEq _ _).mp h2
        simp
      · have h2 : some (pdu.take 5) = some r := h
        obtain rfl := (Option.some.injEq _ _).mp h2
        simp

/-- Any response PDU produced by the dispatcher is no longer than the
request PDU or 8194 bytes, so the MBAP length field never overflows. -/
theorem process_resp_length (unit_id : Nat) {pdu s : List Nat}
    (hp : ∀ b ∈ pdu, b < 256) (hs : ∀ b ∈ s, b < 256) :
    (_process_modbus_request unit_id pdu s).1.length ≤ max pdu.length 8194 := by
  unfold _process_modbus_request
  split
  · exact le_trans (by norm_num) (le_max_right _ _)
  · dsimp only
    split
    · exact le_trans (by norm_num) (le_max_right _ _)
    · rename_i resp heq
      split at heq
      · exact le_trans (le_trans (handle_rhr_len hs heq) (by norm_num)) (le_max_right _ _)
      · split at heq
        · exact le_trans (le_trans (handle_rir_len hs heq) (by norm_num)) (le_max_right _ _)
        · split at heq
          · exact le_trans (handle_wsr_len heq)
              (max_le_max (le_refl _) (by norm_num))
          · split at heq
            · exact le_trans (le_trans (handle_wmr_len heq) (by norm_num)) (le_max_right _ _)
            · split at heq
              · exact le_trans (le_trans (handle_rc_len hp heq) (le_refl _)) (le_max_right _ _)
              · split at heq
                · exact le_trans (le_trans (handle_rdi_len hp heq) (le_refl _))
                    (le_max_right _ _)
                · split at heq
                  · exact le_trans (handle_wsc_len heq)
                      (max_le_max (le_refl _) (by norm_num))
                  · split at heq
                    · exact le_trans (le_trans (handle_wmc_len heq) (by norm_num))
                        (le_max_right _ _)
                    · have h2 : some [pdu.getD 0 0 ||| 0x80, 0x01] = some resp := heq
                      obtain rfl := (Option.some.injEq _ _).mp h2
                      exact le_trans (by norm_num) (le_max_right _ _)

/-- C5: whenever one iteration of the connection handler produces a
response ADU, its MBAP header echoes the request's transaction id
byte-for-byte (bytes 0 and 1), carries protocol id 0 (bytes 2 and 3), a
length field equal to the response PDU length plus one (for the unit
id), and the request's unit id (byte 6). -/
theorem response_header_echoes (inp s adu : List Nat)
    (hinp : ∀ b ∈ inp, b < 256) (hs : ∀ b ∈ s, b < 256)
    (h : handle_client_step inp s = StepResult.reply adu) :
    adu.getD 0 0 = inp.getD 0 0 ∧ adu.getD 1 0 = inp.getD 1 0 ∧
    adu.getD 2 0 = 0 ∧ adu.getD 3 0 = 0 ∧
    be16 (adu.getD 4 0) (adu.getD 5 0) = (adu.length - 7) + 1 ∧
    adu.getD 6 0 = inp.getD 6 0 := by
  unfold handle_client_step _read_exact at h
  split at h
  · exact absurd h (by simp)
  · rename_i header hheader
    have h7 : 7 ≤ inp.length := by
      by_contra hc
      rw [if_neg hc] at hheader
      exact absurd hheader (by simp)
    rw [if_pos h7] at hheader
    obtain rfl : header = inp.take 7 := ((Option.some.injEq _ _).mp hheader).symm
    dsimp only at h
    rw [getD_take_lt inp (by norm_num), getD_take_lt inp (by norm_num),
      getD_take_lt inp (by norm_num), getD_take_lt inp (by norm_num),
      getD_take_lt inp (by norm_num), getD_take_lt inp (by norm_num),
      getD_take_lt inp (by norm_num)] at h
    split at h
    · exact absurd h (by simp)
    · split at h
      · exact absurd h (by simp)
      · rename_i pdu hpdu
        have hple : be16 (inp.getD 4 0) (inp.getD 5 0) - 1 ≤ (inp.drop 7).length := by
          by_contra hc
          rw [if_neg hc] at hpdu
          exact absurd hpdu (by simp)
        rw [if_pos hple] at hpdu
        obtain rfl : pdu = (inp.drop 7).take (be16 (inp.getD 4 0) (inp.getD 5 0) - 1) :=
          ((Option.some.injEq _ _).mp hpdu).symm
        split at h
        · exact absurd h (by simp)
        · split at h
          · exact absurd h (by simp)
          · obtain rfl : adu = _ := ((StepResult.reply.injEq _ _).mp h).symm
            set pdu := (inp.drop 7).take (be16 (inp.getD 4 0) (inp.getD 5 0) - 1) with hpdef
            have hpsub : pdu ⊆ inp := fun b hb =>
              List.drop_subset 7 inp (List.take_subset _ _ hb)
            have hplen : pdu.length ≤ 65534 := by
              have h4 : inp.getD 4 0 < 256 := hinp _ (getD_mem inp (by omega))
              have h5 : inp.getD 5 0 < 256 := hinp _ (getD_mem inp (by omega))
              have := List.length_take_le (be16 (inp.getD 4 0) (inp.getD 5 0) - 1)
                (inp.drop 7)
              rw [hpdef]
              unfold be16 at *
              omega
            have hpb : ∀ b ∈ pdu, b < 256 := fun b hb => hinp b (hpsub hb)
            have hrlen : (_process_modbus_request (inp.getD 6 0) pdu s).1.length ≤ 65534 := by
              have hb := process_resp_length (inp.getD 6 0) hpb hs
              have hm : max pdu.length 8194 ≤ 65534 := max_le hplen (by norm_num)
              omega
            have h0 : inp.getD 0 0 < 256 := hinp _ (getD_mem inp (by omega))
            have h1 : inp.getD 1 0 < 256 := hinp _ (getD_mem inp (by omega))
            have h6 : inp.getD 6 0 < 256 := hinp _ (getD_mem inp (by omega))
            unfold pack_mbap
            simp only [List.cons_append, List.nil_append, List.getD_cons_zero,
              List.getD_cons_succ, List.length_cons, List.length_append, List.length_nil]
            unfold be16
            repeat' apply And.intro
            all_goals first
              | trivial
              | omega

/-- Witness for C5: an unsupported function code produces an exception
reply whose header echoes the request. -/
theorem response_header_echoes_witness :
    (∀ b ∈ [0x12, 0x34, 0, 0, 0, 2, 7, 0x2B], b < 256) ∧
    ([0x12, 0x34, 0, 0, 0, 3, 7, 0xAB, 0x01].getD 0 0 =
      ([0x12, 0x34, 0, 0, 0, 2, 7, 0x2B] : List Nat).getD 0 0 ∧
     [0x12, 0x34, 0, 0, 0, 3, 7, 0xAB, 0x01].getD 1 0 =
      ([0x12, 0x34, 0, 0, 0, 2, 7, 0x2B] : List Nat).getD 1 0 ∧
     ([0x12, 0x34, 0, 0, 0, 3, 7, 0xAB, 0x01] : List Nat).getD 2 0 = 0 ∧
     ([0x12, 0x34, 0, 0, 0, 3, 7, 0xAB, 0x01] : List Nat).getD 3 0 = 0 ∧
     be16 ([0x12, 0x34, 0, 0, 0, 3, 7, 0xAB, 0x01].getD 4 0)
       ([0x12, 0x34, 0, 0, 0, 3, 7, 0xAB, 0x01].getD 5 0) =
       (([0x12, 0x34, 0, 0, 0, 3, 7, 0xAB, 0x01] : List Nat).length - 7) + 1 ∧
     [0x12, 0x34, 0, 0, 0, 3, 7, 0xAB, 0x01].getD 6 0 =
      ([0x12, 0x34, 0, 0, 0, 2, 7, 0x2B] : List Nat).getD 6 0) :=
  ⟨by decide, response_header_echoes [0x12, 0x34, 0, 0, 0, 2, 7, 0x2B] []
    [0x12, 0x34, 0, 0, 0, 3, 7, 0xAB, 0x01] (by decide) (by decide) (by decide)⟩

/-! ## Gateway accept loop (`ModbusTCPServer.start`) -/

/-- State of the accept loop of `ModbusTCPServer.start`
(modbus_tcp_server.py:23-29): `handlers` counts the `handle_client`
tasks spawned by `asyncio.create_task`, `rejected` the connections
closed without entering the state machine.  The source loop body is
`client_socket, addr = self.socket.accept()` followed unconditionally by
`asyncio.create_task(self.handle_client(client_socket))`; an `OSError`
(no pending connection) only sleeps.  No counter, maximum, or rejection
branch exists in the source. -/
structure GatewayState where
  handlers : Nat
  rejected : Nat
deriving DecidableEq

/-- Effect of one successful `accept` in the `start` loop: a handler
task is spawned unconditionally. -/
def gateway_accept (st : GatewayState) : GatewayState :=
  { handlers := st.handlers + 1, rejected := st.rejected }

/-- The accept-loop state after `n` successful accepts. -/
def gateway_run : Nat → GatewayState
  | 0 => { handlers := 0, rejected := 0 }
  | n + 1 => gateway_accept (gateway_run n)

/-- C7 counterexample: after six connections, six handler tasks are live
and none was closed without entering the state machine; the only
configured numeric bound in `start` (the `listen(5)` backlog) is
exceeded. -/
theorem connection_cap_cex :
    gateway_run 6 = { handlers := 6, rejected := 0 } ∧ 5 < 6 := by
  decide

/-- C7 (amended): the listener accepts connections in an unbounded loop
and spawns a handler for every accepted connection; it maintains no
active-connection counter and never closes an excess connection
(`listen(5)` only bounds the pending-connection queue). -/
theorem connection_cap_amended (n : Nat) :
    gateway_run n = { handlers := n, rejected := 0 } := by
  induction n with
  | zero => rfl
  | succ m ih => rw [gateway_run, ih]; rfl

/-! ## Bus exclusivity (`ModbusRTU.lock`)

Every RTU channel operation has the shape
`async with self.lock: self._send_request(frame); self._receive_response()`
(modbus_rtu.py:131-393).  The cooperative tasks sharing the single
`asyncio.Lock` are modelled by an interleaving transition system: a task
acquires only when the lock is free, transmits and performs the
receive+CRC-verify cycle while holding it, and releases on leaving the
`async with` block. -/

/-- Position of one task inside its single RTU transaction. -/
inductive Phase
  | idle
  | locked
  | sent
  | received
  | done
deriving DecidableEq

/-- Observable actions of the tasks. -/
inductive Act
  | acquire (t : Nat)
  | send (t : Nat)
  | recv (t : Nat)
  | release (t : Nat)
deriving DecidableEq

/-- Shared state: the lock owner (if any) and each task's phase. -/
structure Sys where
  lock : Option Nat
  phase : Nat → Phase

/-- Pointwise update of the phase map. -/
def upd (f : Nat → Phase) (t : Nat) (v : Phase) : Nat → Phase :=
  fun x => if x = t then v else f x

/-- Interleaving semantics of the RTU channel operations under
`ModbusRTU.lock`. -/
inductive Step : Sys → Act → Sys → Prop
  | acquire (s : Sys) (t : Nat) (h1 : s.lock = Option.none) (h2 : s.phase t = Phase.idle) :
      Step s (Act.acquire t) ⟨some t, upd s.phase t Phase.locked⟩
  | send (s : Sys) (t : Nat) (h : s.phase t = Phase.locked) :
      Step s (Act.send t) ⟨s.lock, upd s.phase t Phase.sent⟩
  | recv (s : Sys) (t : Nat) (h : s.phase t = Phase.sent) :
      Step s (Act.recv t) ⟨s.lock, upd s.phase t Phase.received⟩
  | release (s : Sys) (t : Nat) (h1 : s.phase t = Phase.received) (h2 : s.lock = some t) :
      Step s (Act.release t) ⟨Option.none, upd s.phase t Phase.done⟩

/-- All tasks idle, lock free. -/
def Sys.init : Sys := ⟨Option.none, fun _ => Phase.idle⟩

/-- Finite executions of the transition system. -/
inductive Trace : Sys → List Act → Sys → Prop
  | nil (s : Sys) : Trace s [] s
  | cons {s1 s2 s3 : Sys} {a : Act} {tr : List Act} :
      Step s1 a s2 → Trace s2 tr s3 → Trace s1 (a :: tr) s3

/-- A task is inside its transaction. -/
def Busy (p : Phase) : Prop :=
  p = Phase.locked ∨ p = Phase.sent ∨ p = Phase.received

/-- Lock discipline: any task inside its transaction owns the lock. -/
def Inv (s : Sys) : Prop := ∀ t, Busy (s.phase t) → s.lock = some t

theorem inv_init : Inv Sys.init := by
  intro t ht
  rcases ht with h | h | h <;> exact absurd h (by simp [Sys.init])

theorem inv_step {s s2 : Sys} {a : Act} (hinv : Inv s) (hstep : Step s a s2) : Inv s2 := by
  cases hstep with
  | acquire t h1 h2 =>
    intro u hu
    by_cases hut : u = t
    · rw [hut]
    · simp only [upd, if_neg hut] at hu
      exact absurd (hinv u hu) (by simp [h1])
  | send t h =>
    intro u hu
    by_cases hut : u = t
    · subst hut
      exact hinv u (Or.inl h)
    · simp only [upd, if_neg hut] at hu
      exact hinv u hu
  | recv t h =>
    intro u hu
    by_cases hut : u = t
    · subst hut
      exact hinv u (Or.inr (Or.inl h))
    · simp only [upd, if_neg hut] at hu
      exact hinv u hu
  | release t h1 h2 =>
    intro u hu
    by_cases hut : u = t
    · subst hut
      simp only [upd, if_pos rfl] at hu
      rcases hu with h | h | h <;> exact absurd h (by simp)
    · simp only [upd, if_neg hut] at hu
      have := hinv u hu
      rw [h2] at this
      exact absurd ((Option.some.injEq _ _).mp this).symm hut

theorem inv_trace {s s2 : Sys} {tr : List Act} (hinv : Inv s) (htr : Trace s tr s2) :
    Inv s2 := by
  induction htr with
  | nil s => exact hinv
  | cons hstep _ ih => exact ih (inv_step hinv hstep)

theorem busy_step {s s2 : Sys} {a : Act} {i : Nat} (hstep : Step s a s2)
    (hb : Busy (s.phase i)) (hne : a ≠ Act.release i) : Busy (s2.phase i) := by
  cases hstep with
  | acquire t h1 h2 =>
    by_cases hti : i = t
    · rw [hti, h2] at hb
      rcases hb with h | h | h <;> exact absurd h (by simp)
    · simpa only [upd, if_neg hti] using hb
  | send t h =>
    by_cases hti : i = t
    · simp [upd, hti, Busy]
    · simpa only [upd, if_neg hti] using hb
  | recv t h =>
    by_cases hti : i = t
    · simp [upd, hti, Busy]
    · simpa only [upd, if_neg hti] using hb
  | release t h1 h2 =>
    have hti : i ≠ t := fun he => hne (by rw [he])
    simpa only [upd, if_neg hti] using hb

theorem busy_stays {s s2 : Sys} {tr : List Act} {i : Nat} (htr : Trace s tr s2)
    (hb : Busy (s.phase i)) (hni : Act.release i ∉ tr) : Busy (s2.phase i) := by
  induction htr with
  | nil s => exact hb
  | cons hstep _ ih =>
    refine ih (busy_step hstep hb ?_) (fun hm => hni (List.mem_cons_of_mem _ hm))
    intro he
    exact hni (by rw [he]; exact List.mem_cons_self _ _)

theorem step_send_inv {s s2 : Sys} {j : Nat} (h : Step s (Act.send j) s2) :
    s.phase j = Phase.locked := by
  cases h
  assumption

theorem trace_split {s2 : Sys} : ∀ {l1 l2 : List Act} {s : Sys}, Trace s (l1 ++ l2) s2 →
    ∃ smid, Trace s l1 smid ∧ Trace smid l2 s2 := by
  intro l1
  induction l1 with
  | nil => exact fun {l2 s} h => ⟨s, Trace.nil s, h⟩
  | cons a t ih =>
    intro l2 s h
    cases h with
    | cons hstep htr =>
      obtain ⟨smid, hm1, hm2⟩ := ih htr
      exact ⟨smid, Trace.cons hstep hm1, hm2⟩

/-- C8: in every execution of tasks sharing `ModbusRTU.lock`, if task `i`
acquires the lock and task `j ≠ i` transmits a frame later in the trace,
then `i`'s release — the end of its full send+receive+CRC-verify cycle —
lies strictly between the two: bus transactions never overlap. -/
theorem rtu_mutual_exclusion (tr : List Act) (sEnd : Sys) (l1 l2 l3 : List Act)
    (i j : Nat) (htr : Trace Sys.init tr sEnd) (hij : i ≠ j)
    (hshape : tr = l1 ++ Act.acquire i :: (l2 ++ Act.send j :: l3)) :
    Act.release i ∈ l2 := by
  by_contra hrel
  subst hshape
  obtain ⟨s1, htr1, htr2⟩ := trace_split htr
  have hinv1 : Inv s1 := inv_trace inv_init htr1
  cases htr2 with
  | cons hstep htr3 =>
    have hinv2 := inv_step hinv1 hstep
    obtain ⟨s3, htr4, htr5⟩ := trace_split htr3
    have hinv3 : Inv s3 := inv_trace hinv2 htr4
    have hbusy3 : Busy (s3.phase i) := by
      cases hstep with
      | acquire h1 h2 => exact busy_stays htr4 (Or.inl (by simp [upd])) hrel
    have hlock3 : s3.lock = some i := hinv3 i hbusy3
    cases htr5 with
    | cons hsend _ =>
      have hj : s3.phase j = Phase.locked := step_send_inv hsend
      have hlj : s3.lock = some j := hinv3 j (Or.inl hj)
      rw [hlock3] at hlj
      exact hij ((Option.some.injEq _ _).mp hlj)

/-- Witness for C8: two tasks run back to back; task 0's release lies
between its acquire and task 1's send. -/
theorem rtu_mutual_exclusion_witness :
    Act.release 0 ∈ [Act.send 0, Act.recv 0, Act.release 0, Act.acquire 1] :=
  rtu_mutual_exclusion
    [Act.acquire 0, Act.send 0, Act.recv 0, Act.release 0, Act.acquire 1, Act.send 1]
    _ [] [Act.send 0, Act.recv 0, Act.release 0, Act.acquire 1] [] 0 1
    (Trace.cons (Step.acquire Sys.init 0 rfl rfl)
      (Trace.cons (Step.send _ 0 rfl)
        (Trace.cons (Step.recv _ 0 rfl)
          (Trace.cons (Step.release _ 0 rfl rfl)
            (Trace.cons (Step.acquire _ 1 rfl rfl)
              (Trace.cons (Step.send _ 1 rfl)
                (Trace.nil _)))))))
    (by decide) rfl

end ModbusGateway
